import Mathlib

/-!
A shallow embedding of the macOS selected-text retrieval library (src/lib.rs)
of the repository under verification.  External OS effects (accessibility
attribute queries, key-event synthesis, subprocess invocation, pasteboard
change-counter reads, the pasteboard string payload, the success of
writeObjects) are modelled as explicit oracle inputs.  The pasteboard
mutations actually performed by the code (clearContents / writeObjects) are
recorded in an explicit operation trace so that frame and restoration
properties can be stated.  Real time inside the polling loop is modelled by
counting poll iterations: each iteration of the source loop sleeps ~10ms
before re-reading the change counter, so elapsed time before the i-th poll
is modelled as 10*i milliseconds.
-/

/-- Clipboard items (NSPasteboardItem) are opaque to the code under
verification; they are modelled as numeric identifiers. -/
abbrev PBItem := Nat

/-- Mirrors `struct SelectedText` in src/lib.rs. -/
structure SelectedText where
  is_file_paths : Bool
  app_name : String
  text : List String
deriving DecidableEq

/-- Mirrors `struct PasteboardSavedState` in src/lib.rs: the change counter
and the optional item list captured at transaction start. -/
structure PasteboardSavedState where
  saved_change_count : Int
  saved_contents : Option (List PBItem)
deriving DecidableEq

/-- Mirrors `enum GetSelectedTextResult` in src/lib.rs. -/
inductive GetSelectedTextResult where
  | text : SelectedText → GetSelectedTextResult
  | pasteboardState : PasteboardSavedState → GetSelectedTextResult
deriving DecidableEq

/-- One pasteboard mutation performed by the library code: `clear` models
`NSPasteboard.clearContents`, `write xs` models `NSPasteboard.writeObjects`
invoked with the item list `xs`. -/
inductive PBOp where
  | clear : PBOp
  | write : List PBItem → PBOp
deriving DecidableEq

/-- Effect of one successful pasteboard mutation on the pasteboard's item
list: clearContents empties it, writeObjects appends the written items. -/
def applyOp (items : List PBItem) : PBOp → List PBItem
  | PBOp.clear => []
  | PBOp.write xs => items ++ xs

/-- Effect of a trace of successful pasteboard mutations, first to last. -/
def applyOps (ops : List PBOp) (items : List PBItem) : List PBItem :=
  ops.foldl applyOp items

/-- Result of one `osascript` subprocess invocation, as observed by the
code: the exit status, the UTF-8 decoding of captured stdout (an `Except`
models `String::from_utf8`, whose failure carries a diagnostic message), and
captured stderr mapped byte-for-byte to characters as the source does.
Process-spawning itself is out of scope per the specification. -/
structure CmdOutput where
  success : Bool
  stdoutDecoded : Except String (List Char)
  stderr : String

/-- Oracle for the two read-only accessibility attribute queries performed
by `get_selected_text_by_ax`: whether a focused UI element exists (and
downcasts), and whether that element has a string selected-text attribute. -/
structure AxOracle where
  focusedElement : Option Unit
  selectedText : Option String

/-- Embeds `get_selected_text_by_ax` (src/lib.rs): no focused element fails
with "No selected element", a missing or non-string selected-text attribute
fails with "No selected text", otherwise the string is returned as-is. -/
def get_selected_text_by_ax (o : AxOracle) : Except String String :=
  match o.focusedElement with
  | none => Except.error "No selected element"
  | some _ =>
    match o.selectedText with
    | none => Except.error "No selected text"
    | some s => Except.ok s

/-- Embeds `quiet_cmd_c` (src/lib.rs): runs the volume-muting copy
keystroke script; a non-zero exit surfaces the captured stderr as the
error, otherwise unit success.  Stdout is ignored by the source. -/
def quiet_cmd_c (output : CmdOutput) : Except String Unit :=
  if output.success then Except.ok () else Except.error output.stderr

/-- Embeds `ctrl_c_and_save_pasteboard` (src/lib.rs): snapshots the change
counter and the current item list, then triggers the copy either through the
scripted keystroke (`quiet_cmd_c`) or through synthesized key events (whose
outcome is the oracle `simResult`); a copy failure propagates. -/
def ctrl_c_and_save_pasteboard (pb_change_count : Int)
    (pb_items : Option (List PBItem)) (use_applescript : Bool)
    (scriptOut : CmdOutput) (simResult : Except String Unit) :
    Except String PasteboardSavedState :=
  match (if use_applescript then quiet_cmd_c scriptOut else simResult) with
  | Except.ok _ => Except.ok ⟨pb_change_count, pb_items⟩
  | Except.error e => Except.error e

/-- The body of the change-counter polling loop of
`get_selected_text_from_pasteboard` (src/lib.rs).  `i` is the number of
polls performed so far, `nw` the last value read; elapsed time is modelled
as 10*i ms (one ~10ms sleep per poll).  Returns the final counter value and
the total number of polls.  Mirrors the source order: the while-guard
(`new == saved`) is tested first, then the deadline, then sleep-and-poll. -/
def pollGo (saved : Int) (reads : Nat → Int) (timeout : Nat) (i : Nat)
    (nw : Int) : Int × Nat :=
  if nw = saved then
    if 10 * i > timeout then (nw, i)
    else pollGo saved reads timeout (i + 1) (reads i)
  else (nw, i)
termination_by timeout / 10 + 1 - i
decreasing_by omega

/-- The polling loop of `get_selected_text_from_pasteboard`, started the
way the source starts it: zero polls done, `new_change_count` initialised
to `saved_change_count`. -/
def pollLoop (saved : Int) (reads : Nat → Int) (timeout : Nat) : Int × Nat :=
  pollGo saved reads timeout 0 saved

/-- Embeds `get_selected_text_from_pasteboard` (src/lib.rs).  Oracles:
`reads i` is the change-counter value returned by the i-th poll,
`copied_text` the `stringForType` payload read after a detected change,
`writeOk` the boolean returned by `writeObjects`.  Returns the source's
result together with the trace of pasteboard mutations performed. -/
def get_selected_text_from_pasteboard (app_name : String)
    (reads : Nat → Int) (copied_text : Option String) (writeOk : Bool)
    (saved_change_count : Int) (saved_contents : Option (List PBItem))
    (pasteboard_wait_timeout : Nat) :
    Except String SelectedText × List PBOp :=
  if (pollLoop saved_change_count reads pasteboard_wait_timeout).1
      = saved_change_count then
    (Except.ok ⟨false, app_name, [ "" ]⟩, [])
  else
    match saved_contents with
    | some prev_contents =>
      if prev_contents.length > 1 then
        if writeOk then
          (Except.ok ⟨false, app_name, [ copied_text.getD "" ]⟩,
            [PBOp.clear, PBOp.write (prev_contents.take (prev_contents.length - 1))])
        else
          (Except.error "Failed to write objects to pasteboard",
            [PBOp.clear, PBOp.write (prev_contents.take (prev_contents.length - 1))])
      else
        (Except.ok ⟨false, app_name, [ copied_text.getD "" ]⟩, [PBOp.clear])
    | none => (Except.ok ⟨false, app_name, [ copied_text.getD "" ]⟩, [])

/-- Embeds `get_selected_text_using_ax_then_copy` (src/lib.rs): on any
accessibility success (the string may be empty) the text result is returned
directly; only on an accessibility error is the clipboard transaction begun
via `ctrl_c_and_save_pasteboard`, whose own failure propagates. -/
def get_selected_text_using_ax_then_copy (app_name : String) (o : AxOracle)
    (use_apple_script : Bool) (scriptOut : CmdOutput)
    (simResult : Except String Unit) (pb_change_count : Int)
    (pb_items : Option (List PBItem)) :
    Except String GetSelectedTextResult :=
  match get_selected_text_by_ax o with
  | Except.ok txt => Except.ok (GetSelectedTextResult.text ⟨false, app_name, [txt]⟩)
  | Except.error _ =>
    match ctrl_c_and_save_pasteboard pb_change_count pb_items use_apple_script
        scriptOut simResult with
    | Except.ok st => Except.ok (GetSelectedTextResult.pasteboardState st)
    | Except.error e => Except.error e

/-- Embeds `_selected_text` (src/lib.rs), the combined retrieval operation.
Besides the source's result it returns a Bool recording whether the
clipboard-copy path was entered, and the trace of pasteboard mutations
performed (both are ghost instrumentation; the first component is exactly
the source's return value).  The source passes the fixed timeout 90. -/
def _selected_text (app_name : String) (o : AxOracle)
    (use_apple_script : Bool) (scriptOut : CmdOutput)
    (simResult : Except String Unit) (pb_change_count : Int)
    (pb_items : Option (List PBItem)) (reads : Nat → Int)
    (copied_text : Option String) (writeOk : Bool) :
    Except String SelectedText × Bool × List PBOp :=
  match get_selected_text_using_ax_then_copy app_name o use_apple_script
      scriptOut simResult pb_change_count pb_items with
  | Except.ok (GetSelectedTextResult.text st) => (Except.ok st, false, [])
  | Except.ok (GetSelectedTextResult.pasteboardState s) =>
    ((get_selected_text_from_pasteboard app_name reads copied_text writeOk
        s.saved_change_count s.saved_contents 90).1,
     true,
     (get_selected_text_from_pasteboard app_name reads copied_text writeOk
        s.saved_change_count s.saved_contents 90).2)
  | Except.error e => (Except.error e, true, [])

/-- Splits a character list on newline characters, with the semantics of
Rust's `str::split('\n')` used by `get_selected_files`: the empty string
yields one empty piece, and each newline separates two pieces. -/
def splitOnNewline : List Char → List (List Char)
  | [] => [[]]
  | c :: rest =>
    if c = '\n' then [] :: splitOnNewline rest
    else
      match splitOnNewline rest with
      | [] => [[c]]
      | r :: rs => (c :: r) :: rs

/-- Whitespace trimming at both ends, modelling Rust's `str::trim` used on
the script output (the Unicode whitespace set is abstracted to Lean's
`Char.isWhitespace`, which covers the characters the code can meet here). -/
def rustTrim (s : List Char) : List Char :=
  ((s.dropWhile Char.isWhitespace).reverse.dropWhile Char.isWhitespace).reverse

/-- The newline join produced by the external file-enumeration scripts:
selected paths joined with a single linefeed, empty output for no paths.
Used only to state hypotheses about the opaque script's output. -/
def joinNewline : List (List Char) → List Char
  | [] => []
  | [p] => p
  | p :: ps => p ++ '\n' :: joinNewline ps

/-- Embeds `get_selected_file_paths_by_clipboard_using_applescript`
(src/lib.rs).  The two literal script bodies are opaque external backends;
`for_empty_window` only selects which one runs, `output` is the observed
subprocess result.  Zero exit: stdout is UTF-8-decoded (failure surfaces
the decode diagnostic) and trimmed.  Non-zero exit: stderr is the error. -/
def get_selected_file_paths_by_clipboard_using_applescript
    (for_empty_window : Bool) (output : CmdOutput) :
    Except String (List Char) :=
  if output.success then
    match output.stdoutDecoded with
    | Except.ok content => Except.ok (rustTrim content)
    | Except.error e => Except.error e
  else Except.error output.stderr

/-- Embeds `get_selected_files` (src/lib.rs): runs the script for the
window (desktop variant when the window name is the "Empty Window"
sentinel), splits the returned text on newlines into the result sequence
with `is_file_paths` set, and prefixes script failures with the context
message the source formats. -/
def get_selected_files (window_name : String) (output : CmdOutput) :
    Except String SelectedText :=
  match get_selected_file_paths_by_clipboard_using_applescript
      (window_name == "Empty Window") output with
  | Except.ok text =>
    Except.ok ⟨true, window_name, (splitOnNewline text).map String.mk⟩
  | Except.error e =>
    Except.error
      ("get_selected_file_paths_by_clipboard_using_applescript failed: " ++ e)

/-- Modelled from the spec: the per-application method memoization cache
(spec section 4.5 and data model section 3) is absent from this
repository's sources, so it is modelled from the specification's words: a
bounded least-recently-used map from application name to method tag with
capacity 100.  The list holds the most recently used entry first. -/
abbrev MethodCache := List (String × Nat)

/-- Modelled from the spec: the memoization cache capacity. -/
def METHOD_CACHE_CAPACITY : Nat := 100

/-- Modelled from the spec: recording an (app name, method tag) outcome in
the LRU cache: the entry becomes most recent, any previous entry for the
same key is removed, and the least recently used entry beyond the capacity
is evicted. -/
def lruPut (c : MethodCache) (k : String) (v : Nat) : MethodCache :=
  ((k, v) :: c.filter fun p => p.1 != k).take METHOD_CACHE_CAPACITY

/-- Modelled from the spec: cache lookup by application name. -/
def lruGet (c : MethodCache) (k : String) : Option Nat :=
  (c.find? fun p => p.1 == k).map Prod.snd

lemma pollGo_snd_le (saved : Int) (reads : Nat → Int) (t : Nat) :
    ∀ (n i : Nat) (nw : Int), t / 10 + 1 - i ≤ n → i ≤ t / 10 + 1 →
      (pollGo saved reads t i nw).2 ≤ t / 10 + 1 := by
  intro n
  induction n with
  | zero =>
    intro i nw hn hi
    rw [pollGo.eq_def]
    split
    · split
      · exact hi
      · exfalso; omega
    · exact hi
  | succ n ih =>
    intro i nw hn hi
    rw [pollGo.eq_def]
    split
    · split
      · exact hi
      · exact ih (i + 1) (reads i) (by omega) (by omega)
    · exact hi

lemma pollGo_fst_eq_of_const (saved : Int) (reads : Nat → Int) (t : Nat)
    (h : ∀ j, reads j = saved) :
    ∀ (n i : Nat), t / 10 + 1 - i ≤ n → (pollGo saved reads t i saved).1 = saved := by
  intro n
  induction n with
  | zero =>
    intro i hn
    rw [pollGo.eq_def]
    rw [if_pos rfl]
    split
    · rfl
    · exfalso; omega
  | succ n ih =>
    intro i hn
    rw [pollGo.eq_def]
    rw [if_pos rfl]
    split
    · rfl
    · rw [h i]
      exact ih (i + 1) (by omega)

lemma pollLoop_fst_of_const (saved : Int) (reads : Nat → Int) (t : Nat)
    (h : ∀ j, reads j = saved) : (pollLoop saved reads t).1 = saved :=
  pollGo_fst_eq_of_const saved reads t h (t / 10 + 1) 0 (by omega)

/-- Claim C5: if the clipboard change-counter never differs from the saved
snapshot before the deadline elapses, `get_selected_text_from_pasteboard`
returns success (not an error) with `is_file_paths = false` and `text` equal
to the one-element sequence containing the empty string; no pasteboard
mutation is performed. -/
theorem pasteboard_timeout_success (app_name : String) (reads : Nat → Int)
    (copied_text : Option String) (writeOk : Bool) (saved : Int)
    (saved_contents : Option (List PBItem)) (t : Nat)
    (h : ∀ i, reads i = saved) :
    get_selected_text_from_pasteboard app_name reads copied_text writeOk
        saved saved_contents t
      = (Except.ok ⟨false, app_name, [ "" ]⟩, []) := by
  unfold get_selected_text_from_pasteboard
  rw [if_pos (pollLoop_fst_of_const saved reads t h)]

/-- Witness for `pasteboard_timeout_success` at a concrete input. -/
theorem pasteboard_timeout_success_witness :
    get_selected_text_from_pasteboard "App" (fun _ => 0) none true 0
        (some [1, 2]) 90
      = (Except.ok ⟨false, "App", [ "" ]⟩, []) :=
  pasteboard_timeout_success "App" (fun _ => 0) none true 0 (some [1, 2]) 90
    (fun _ => rfl)

/-- Claim C6: the polling loop of `get_selected_text_from_pasteboard`
terminates (it is a total function) and, for all inputs, performs at most
timeout-divided-by-poll-interval plus one poll iterations, so the function
never blocks longer than the wait timeout plus one ~10ms poll interval. -/
theorem pollLoop_iterations_bound (saved : Int) (reads : Nat → Int)
    (t : Nat) : (pollLoop saved reads t).2 ≤ t / 10 + 1 :=
  pollGo_snd_le saved reads t (t / 10 + 1) 0 saved (by omega) (by omega)

/-- Claim C10: when the snapshot's saved contents are `none` and a
clipboard change is detected, `get_selected_text_from_pasteboard` performs
no pasteboard mutation at all (empty operation trace: neither clearContents
nor writeObjects) and still returns success with the copied string, or the
empty string when the string payload type is absent. -/
theorem no_saved_contents_frame (app_name : String) (reads : Nat → Int)
    (copied_text : Option String) (writeOk : Bool) (saved : Int) (t : Nat)
    (hch : (pollLoop saved reads t).1 ≠ saved) :
    get_selected_text_from_pasteboard app_name reads copied_text writeOk
        saved none t
      = (Except.ok ⟨false, app_name, [ copied_text.getD "" ]⟩, []) := by
  unfold get_selected_text_from_pasteboard
  rw [if_neg hch]

/-- Witness for `no_saved_contents_frame` at a concrete input. -/
theorem no_saved_contents_frame_witness :
    ((pollLoop 0 (fun _ => 1) 0).1 ≠ 0)
      ∧ get_selected_text_from_pasteboard "App" (fun _ => 1) (some "hi")
          true 0 none 0
        = (Except.ok ⟨false, "App", [ "hi" ]⟩, []) := by
  have hch : (pollLoop 0 (fun _ => (1 : Int)) 0).1 ≠ 0 := by
    simp [pollLoop, pollGo]
  exact ⟨hch, no_saved_contents_frame "App" (fun _ => 1) (some "hi") true 0 0 hch⟩

/-- Counterexample to claim C2: a concrete call of
`get_selected_text_from_pasteboard` with non-`none` saved contents that
takes the timeout return path returns success with an EMPTY mutation trace:
no clearContents and no writeObjects is ever invoked, so restoration of the
saved contents is neither attempted nor is any failure surfaced. -/
theorem timeout_no_restoration_cex :
    (get_selected_text_from_pasteboard "App" (fun _ => 0) none true 0
        (some [7]) 0).1
        = Except.ok ⟨false, "App", [ "" ]⟩
      ∧ (get_selected_text_from_pasteboard "App" (fun _ => 0) none true 0
          (some [7]) 0).2 = [] := by
  have h0 : (pollLoop 0 (fun _ => (0 : Int)) 0).1 = 0 :=
    pollLoop_fst_of_const 0 (fun _ => 0) 0 (fun _ => rfl)
  constructor <;>
    · unfold get_selected_text_from_pasteboard
      rw [if_pos h0]

/-- Claim C2 (amended): with non-`none` saved contents, on every return
path on which the clipboard change was detected, restoration is attempted
(clearContents is always invoked) and a failed restoration write surfaces
as a hard error; on the timeout return path, where the change counter never
differed from the snapshot and the clipboard was therefore never observed
to change, the function returns without performing any pasteboard
mutation. -/
theorem pasteboard_restoration_on_change (app_name : String)
    (reads : Nat → Int) (copied_text : Option String) (writeOk : Bool)
    (saved : Int) (l : List PBItem) (t : Nat) :
    ((pollLoop saved reads t).1 ≠ saved →
        PBOp.clear ∈ (get_selected_text_from_pasteboard app_name reads
            copied_text writeOk saved (some l) t).2
      ∧ (1 < l.length → writeOk = false →
          (get_selected_text_from_pasteboard app_name reads copied_text
              writeOk saved (some l) t).1
            = Except.error "Failed to write objects to pasteboard"))
  ∧ ((pollLoop saved reads t).1 = saved →
      (get_selected_text_from_pasteboard app_name reads copied_text writeOk
          saved (some l) t).2 = []) := by
  constructor
  · intro hch
    constructor
    · simp only [get_selected_text_from_pasteboard, if_neg hch]
      by_cases hl : l.length > 1
      · simp only [if_pos hl]
        cases writeOk <;> simp
      · simp only [if_neg hl]
        simp
    · intro hl hw
      subst hw
      simp only [get_selected_text_from_pasteboard, if_neg hch]
      simp [hl]
  · intro heq
    unfold get_selected_text_from_pasteboard
    rw [if_pos heq]

/-- Witness for `pasteboard_restoration_on_change` at a concrete input. -/
theorem pasteboard_restoration_on_change_witness :
    ((pollLoop 0 (fun _ => 1) 0).1 ≠ 0)
      ∧ PBOp.clear ∈ (get_selected_text_from_pasteboard "App" (fun _ => 1)
          none true 0 (some [5]) 0).2 := by
  have hch : (pollLoop 0 (fun _ => (1 : Int)) 0).1 ≠ 0 := by
    simp [pollLoop, pollGo]
  exact ⟨hch,
    ((pasteboard_restoration_on_change "App" (fun _ => 1) none true 0 [5] 0).1
      hch).1⟩

/-- Counterexample to claim C3: a concrete transaction whose snapshot
captured exactly one pre-existing item (item 7) and which detects a
clipboard change.  The restoration performs only clearContents (rewriting
nothing, because the saved count is not greater than 1), so whatever the
clipboard held at completion time (here item 9, left by the copy), the
final clipboard contents are empty and differ from the pre-transaction
contents [7]: the round-trip identity fails for one saved item. -/
theorem roundtrip_one_item_cex :
    (get_selected_text_from_pasteboard "App" (fun _ => 1) (some "hi") true 0
        (some [7]) 0).2 = [PBOp.clear]
      ∧ applyOps (get_selected_text_from_pasteboard "App" (fun _ => 1)
          (some "hi") true 0 (some [7]) 0).2 [9] = []
      ∧ ([] : List PBItem) ≠ [7] := by
  have hch : (pollLoop 0 (fun _ => (1 : Int)) 0).1 ≠ 0 := by
    simp [pollLoop, pollGo]
  have h : get_selected_text_from_pasteboard "App" (fun _ => 1) (some "hi")
      true 0 (some [7]) 0 = (Except.ok ⟨false, "App", [ "hi" ]⟩, [PBOp.clear]) := by
    unfold get_selected_text_from_pasteboard
    rw [if_neg hch]
    rfl
  refine ⟨by rw [h], by rw [h]; rfl, by decide⟩

/-- Claim C3 (amended): for a snapshot that captured 0 pre-existing items
the round-trip holds on every return path: on a detected change the
restoration clears the clipboard, leaving it empty as it was before the
transaction, and on the timeout path no mutation occurs at all.  For a
snapshot of exactly 1 item the round-trip holds only on the timeout path:
on a detected change the restoration clears the clipboard and rewrites
nothing, leaving 0 items instead of the saved one. -/
theorem pasteboard_roundtrip_small (app_name : String) (reads : Nat → Int)
    (copied_text : Option String) (writeOk : Bool) (saved : Int) (t : Nat)
    (c : List PBItem) (x : PBItem) :
    ((pollLoop saved reads t).1 ≠ saved →
        applyOps (get_selected_text_from_pasteboard app_name reads
            copied_text writeOk saved (some []) t).2 c = []
      ∧ applyOps (get_selected_text_from_pasteboard app_name reads
            copied_text writeOk saved (some [x]) t).2 c = [])
  ∧ ((pollLoop saved reads t).1 = saved →
        (get_selected_text_from_pasteboard app_name reads copied_text
            writeOk saved (some []) t).2 = []
      ∧ (get_selected_text_from_pasteboard app_name reads copied_text
            writeOk saved (some [x]) t).2 = []) := by
  constructor
  · intro hch
    constructor <;>
      · unfold get_selected_text_from_pasteboard
        rw [if_neg hch]
        rfl
  · intro heq
    constructor <;>
      · unfold get_selected_text_from_pasteboard
        rw [if_pos heq]

/-- Witness for `pasteboard_roundtrip_small` at a concrete input. -/
theorem pasteboard_roundtrip_small_witness :
    ((pollLoop 0 (fun _ => 1) 0).1 ≠ 0)
      ∧ applyOps (get_selected_text_from_pasteboard "App" (fun _ => 1) none
          true 0 (some []) 0).2 [9] = [] := by
  have hch : (pollLoop 0 (fun _ => (1 : Int)) 0).1 ≠ 0 := by
    simp [pollLoop, pollGo]
  exact ⟨hch,
    ((pasteboard_roundtrip_small "App" (fun _ => 1) none true 0 0 [9] 7).1
      hch).1⟩

/-- Claim C4: for a snapshot of N > 1 items and a detected clipboard
change, restoration clears the clipboard and writes back exactly the first
N-1 saved items in their original order (all saved items except the last),
so the post-restoration item count is N-1; if the write-back fails, the
function returns a hard error rather than success. -/
theorem pasteboard_restore_drops_last (app_name : String)
    (reads : Nat → Int) (copied_text : Option String) (saved : Int)
    (l : List PBItem) (t : Nat) (c : List PBItem)
    (hlen : 1 < l.length) (hch : (pollLoop saved reads t).1 ≠ saved) :
    get_selected_text_from_pasteboard app_name reads copied_text true saved
        (some l) t
      = (Except.ok ⟨false, app_name, [ copied_text.getD "" ]⟩,
          [PBOp.clear, PBOp.write (l.take (l.length - 1))])
    ∧ applyOps [PBOp.clear, PBOp.write (l.take (l.length - 1))] c
        = l.take (l.length - 1)
    ∧ (l.take (l.length - 1)).length = l.length - 1
    ∧ (get_selected_text_from_pasteboard app_name reads copied_text false
          saved (some l) t).1
        = Except.error "Failed to write objects to pasteboard" := by
  refine ⟨?_, ?_, ?_, ?_⟩
  · simp only [get_selected_text_from_pasteboard, if_neg hch]
    simp [hlen]
  · simp [applyOps, applyOp]
  · rw [List.length_take]
    omega
  · simp only [get_selected_text_from_pasteboard, if_neg hch]
    simp [hlen]

/-- Witness for `pasteboard_restore_drops_last` at a concrete input. -/
theorem pasteboard_restore_drops_last_witness :
    (1 < ([1, 2, 3] : List PBItem).length)
      ∧ ((pollLoop 0 (fun _ => 5) 0).1 ≠ 0)
      ∧ get_selected_text_from_pasteboard "App" (fun _ => 5) none true 0
          (some [1, 2, 3]) 0
        = (Except.ok ⟨false, "App", [ "" ]⟩, [PBOp.clear, PBOp.write [1, 2]]) := by
  have hch : (pollLoop 0 (fun _ => (5 : Int)) 0).1 ≠ 0 := by
    simp [pollLoop, pollGo]
  refine ⟨by decide, hch, ?_⟩
  have h := (pasteboard_restore_drops_last "App" (fun _ => 5) none 0
    [1, 2, 3] 0 [9] (by decide) hch).1
  simpa using h

/-- Counterexample to claim C1: a concrete call of `_selected_text` in
which the accessibility reader succeeds with the EMPTY string.  The
orchestrator does not proceed to the clipboard-copy path (the
clipboard-path flag is `false` and the mutation trace is empty: no
transaction is begun, let alone completed); instead the empty accessibility
result is returned directly as the final success. -/
theorem ax_empty_returns_directly_cex :
    _selected_text "App" ⟨some (), some ""⟩ false ⟨true, Except.ok [], ""⟩
        (Except.ok ()) 0 none (fun _ => 0) none true
      = (Except.ok ⟨false, "App", [ "" ]⟩, false, []) := rfl

/-- Claim C1 (amended): if the accessibility reader FAILS, the orchestrator
proceeds to the clipboard-copy path: it begins a clipboard transaction
(`ctrl_c_and_save_pasteboard`) and, when the copy succeeds, completes it
with `get_selected_text_from_pasteboard` under the bounded wait, returning
that result.  If the accessibility reader SUCCEEDS — even with the empty
string — its result is returned directly as the final success, without any
clipboard transaction. -/
theorem selected_text_ax_flow (app_name : String) (o : AxOracle)
    (use_apple_script : Bool) (scriptOut : CmdOutput)
    (simResult : Except String Unit) (pb_change_count : Int)
    (pb_items : Option (List PBItem)) (reads : Nat → Int)
    (copied_text : Option String) (writeOk : Bool) :
    (∀ s, get_selected_text_by_ax o = Except.ok s →
        _selected_text app_name o use_apple_script scriptOut simResult
            pb_change_count pb_items reads copied_text writeOk
          = (Except.ok ⟨false, app_name, [s]⟩, false, []))
  ∧ (∀ e st, get_selected_text_by_ax o = Except.error e →
      ctrl_c_and_save_pasteboard pb_change_count pb_items use_apple_script
          scriptOut simResult = Except.ok st →
      _selected_text app_name o use_apple_script scriptOut simResult
          pb_change_count pb_items reads copied_text writeOk
        = ((get_selected_text_from_pasteboard app_name reads copied_text
              writeOk st.saved_change_count st.saved_contents 90).1,
           true,
           (get_selected_text_from_pasteboard app_name reads copied_text
              writeOk st.saved_change_count st.saved_contents 90).2)) := by
  constructor
  · intro s hax
    simp [_selected_text, get_selected_text_using_ax_then_copy, hax]
  · intro e st hax hcopy
    simp [_selected_text, get_selected_text_using_ax_then_copy, hax, hcopy]

/-- Witness for `selected_text_ax_flow` at a concrete input: the
accessibility reader fails, the scripted copy is not used and the
key-synthesis copy succeeds, the pasteboard never changes, so the
clipboard path runs to its timeout success. -/
theorem selected_text_ax_flow_witness :
    _selected_text "App" ⟨none, none⟩ false ⟨true, Except.ok [], ""⟩
        (Except.ok ()) 0 none (fun _ => 0) none true
      = (Except.ok ⟨false, "App", [ "" ]⟩, true, []) := by
  have h := (selected_text_ax_flow "App" ⟨none, none⟩ false
      ⟨true, Except.ok [], ""⟩ (Except.ok ()) 0 none (fun _ => 0) none
      true).2 "No selected element" ⟨0, none⟩ rfl rfl
  rw [h]
  have h0 : (pollLoop 0 (fun _ => (0 : Int)) 90).1 = 0 :=
    pollLoop_fst_of_const 0 (fun _ => 0) 90 (fun _ => rfl)
  unfold get_selected_text_from_pasteboard
  rw [if_pos h0]

/-- Counterexample to claim C8: in text mode, a failure of the scripted
copy does NOT silently trigger a fallback; it is propagated to the caller.
Concretely, with the accessibility reader failing and the scripted copy
exiting non-zero with stderr "boom", `_selected_text` returns the hard
error "boom" (and performs no pasteboard mutation), rather than any
fallback success. -/
theorem text_mode_script_failure_propagates_cex :
    _selected_text "App" ⟨none, none⟩ true ⟨false, Except.ok [], "boom"⟩
        (Except.ok ()) 0 none (fun _ => 0) none true
      = (Except.error "boom", true, []) := rfl

/-- Claim C8 (amended): a script-invocation failure in file-path mode is
surfaced to the caller as an error carrying the captured diagnostics — the
captured stderr on a non-zero exit, or the decoding diagnostic when stdout
is not valid UTF-8 — while in text mode a failure of the scripted copy is
likewise propagated to the caller as a hard error (it does not silently
trigger a fallback; it is an accessibility-reader failure that silently
routes to the clipboard-copy path). -/
theorem script_failure_handling :
    (∀ (wn : String) (out : CmdOutput), out.success = false →
        get_selected_files wn out
          = Except.error
              ("get_selected_file_paths_by_clipboard_using_applescript failed: "
                ++ out.stderr))
  ∧ (∀ (wn : String) (out : CmdOutput) (d : String), out.success = true →
      out.stdoutDecoded = Except.error d →
        get_selected_files wn out
          = Except.error
              ("get_selected_file_paths_by_clipboard_using_applescript failed: "
                ++ d))
  ∧ (∀ (app_name : String) (o : AxOracle) (scriptOut : CmdOutput)
      (simResult : Except String Unit) (pb_change_count : Int)
      (pb_items : Option (List PBItem)) (reads : Nat → Int)
      (copied_text : Option String) (writeOk : Bool) (e : String),
      get_selected_text_by_ax o = Except.error e → scriptOut.success = false →
        _selected_text app_name o true scriptOut simResult pb_change_count
            pb_items reads copied_text writeOk
          = (Except.error scriptOut.stderr, true, [])) := by
  refine ⟨?_, ?_, ?_⟩
  · intro wn out hs
    simp [get_selected_files,
      get_selected_file_paths_by_clipboard_using_applescript, hs]
  · intro wn out d hs hd
    simp [get_selected_files,
      get_selected_file_paths_by_clipboard_using_applescript, hs, hd]
  · intro app_name o scriptOut simResult pb_change_count pb_items reads
      copied_text writeOk e hax hs
    simp [_selected_text, get_selected_text_using_ax_then_copy, hax,
      ctrl_c_and_save_pasteboard, quiet_cmd_c, hs]

/-- Witness for `script_failure_handling` at a concrete input. -/
theorem script_failure_handling_witness :
    get_selected_files "Finder" ⟨false, Except.ok [], "oops"⟩
      = Except.error
          ("get_selected_file_paths_by_clipboard_using_applescript failed: "
            ++ "oops") :=
  script_failure_handling.1 "Finder" ⟨false, Except.ok [], "oops"⟩ rfl

lemma splitOnNewline_no_newline (p : List Char) (h : ('\n') ∉ p) :
    splitOnNewline p = [p] := by
  induction p with
  | nil => rfl
  | cons c rest ih =>
    have hc : ¬ c = '\n' := by
      intro e
      exact h (by simp [e])
    have hr : ('\n') ∉ rest := fun hm => h (List.mem_cons_of_mem _ hm)
    simp only [splitOnNewline, if_neg hc, ih hr]

lemma splitOnNewline_append (p t : List Char) (h : ('\n') ∉ p) :
    splitOnNewline (p ++ '\n' :: t) = p :: splitOnNewline t := by
  induction p with
  | nil => simp [splitOnNewline]
  | cons c rest ih =>
    have hc : ¬ c = '\n' := by
      intro e
      exact h (by simp [e])
    have hr : ('\n') ∉ rest := fun hm => h (List.mem_cons_of_mem _ hm)
    simp only [List.cons_append, splitOnNewline, if_neg hc]
    rw [show splitOnNewline (rest.append ('\n' :: t)) = rest :: splitOnNewline t
      from ih hr]

lemma splitOnNewline_joinNewline (paths : List (List Char))
    (hne : paths ≠ []) (hnl : ∀ p ∈ paths, ('\n') ∉ p) :
    splitOnNewline (joinNewline paths) = paths := by
  induction paths with
  | nil => cases hne rfl
  | cons p ps ih =>
    cases ps with
    | nil =>
      simpa [joinNewline] using
        splitOnNewline_no_newline p (hnl p (List.mem_cons_self p []))
    | cons q qs =>
      have h1 : ('\n') ∉ p := hnl p (List.mem_cons_self p (q :: qs))
      have h2 : ∀ r ∈ q :: qs, ('\n') ∉ r := fun r hr =>
        hnl r (List.mem_cons_of_mem p hr)
      have hj : joinNewline (p :: q :: qs) = p ++ '\n' :: joinNewline (q :: qs) :=
        rfl
      rw [hj, splitOnNewline_append p _ h1,
        ih (by simp) h2]

/-- Claim C7: a successful file-path retrieval via `get_selected_files`
yields `is_file_paths = true`, `app_name` equal to the given window name,
and `text` equal to the script output split on the newline separator: when
the script reports N selected items as N newline-joined paths (none of
which contains a newline, and with no surrounding whitespace for the trim
to remove), the result is the N-element ordered path sequence; and when it
reports 0 selected items (empty output), the result is exactly one element
which is the empty string. -/
theorem get_selected_files_spec (wn : String) (out : CmdOutput)
    (paths : List (List Char))
    (hs : out.success = true)
    (hd : out.stdoutDecoded = Except.ok (joinNewline paths))
    (hne : paths ≠ [])
    (hnl : ∀ p ∈ paths, ('\n') ∉ p)
    (htrim : rustTrim (joinNewline paths) = joinNewline paths) :
    get_selected_files wn out
        = Except.ok ⟨true, wn, paths.map String.mk⟩
      ∧ (paths.map String.mk).length = paths.length
      ∧ (∀ out2 : CmdOutput, out2.success = true →
          out2.stdoutDecoded = Except.ok [] →
          get_selected_files wn out2 = Except.ok ⟨true, wn, [ "" ]⟩) := by
  refine ⟨?_, List.length_map _ _, ?_⟩
  · simp [get_selected_files,
      get_selected_file_paths_by_clipboard_using_applescript, hs, hd, htrim,
      splitOnNewline_joinNewline paths hne hnl]
  · intro out2 hs2 hd2
    simp [get_selected_files,
      get_selected_file_paths_by_clipboard_using_applescript, hs2, hd2,
      rustTrim, splitOnNewline]

/-- Witness for `get_selected_files_spec` at a concrete input: three
selected items. -/
theorem get_selected_files_spec_witness :
    get_selected_files "Finder"
        ⟨true, Except.ok ['a', '\n', 'b', '\n', 'c'], ""⟩
      = Except.ok ⟨true, "Finder", [ "a", "b", "c" ]⟩ := by
  have h := (get_selected_files_spec "Finder"
    ⟨true, Except.ok ['a', '\n', 'b', '\n', 'c'], ""⟩
    [['a'], ['b'], ['c']] rfl rfl (by decide) (by decide) (by decide)).1
  simpa using h

lemma take_append_take {α : Type} (xs ys : List α) (n : Nat) :
    (xs ++ ys.take n).take n = (xs ++ ys).take n := by
  rw [List.take_append_eq_append_take, List.take_append_eq_append_take,
    List.take_take]
  rw [Nat.min_eq_left (Nat.sub_le n xs.length)]

lemma foldl_lruPut_fresh (tag : String → Nat) :
    ∀ (ks : List String) (c : MethodCache), ks.Nodup →
      (∀ a ∈ ks, ∀ p ∈ c, p.1 ≠ a) → c.length ≤ METHOD_CACHE_CAPACITY →
      ks.foldl (fun acc k2 => lruPut acc k2 (tag k2)) c
        = ((ks.reverse.map fun a => (a, tag a)) ++ c).take
            METHOD_CACHE_CAPACITY := by
  intro ks
  induction ks with
  | nil =>
    intro c _ _ hc
    simpa using (List.take_of_length_le hc).symm
  | cons a ks ih =>
    intro c hnd hfresh hc
    have hna : a ∉ ks := (List.nodup_cons.mp hnd).1
    have hfilter : (c.filter fun p => p.1 != a) = c := by
      apply List.filter_eq_self.mpr
      intro p hp
      simpa using hfresh a (List.mem_cons_self a ks) p hp
    have h1 : lruPut c a (tag a)
        = ((a, tag a) :: c).take METHOD_CACHE_CAPACITY := by
      unfold lruPut
      rw [hfilter]
    have hfresh' : ∀ b ∈ ks,
        ∀ p ∈ ((a, tag a) :: c).take METHOD_CACHE_CAPACITY, p.1 ≠ b := by
      intro b hb p hp
      have hp' : p ∈ (a, tag a) :: c := List.take_subset _ _ hp
      rcases List.mem_cons.mp hp' with h | h
      · subst h
        intro e
        rw [show ((a, tag a)).1 = a from rfl] at e
        subst e
        exact hna hb
      · exact hfresh b (List.mem_cons_of_mem a hb) p h
    have hc' : (((a, tag a) :: c).take METHOD_CACHE_CAPACITY).length
        ≤ METHOD_CACHE_CAPACITY := by
      rw [List.length_take]
      exact Nat.min_le_left _ _
    rw [List.foldl_cons, h1, ih _ (List.nodup_cons.mp hnd).2 hfresh' hc']
    rw [take_append_take]
    rw [List.reverse_cons, List.map_append, List.append_assoc]
    rfl

/-- Claim C9 (modelled from the spec, the cache being absent from the
sources): the method memoization cache has capacity 100 with
least-recently-used eviction.  After an application identity `k` is
recorded and then at least 100 further distinct application identities
(none of them `k`) are recorded without `k` being used again, the
least-recently-used entry `k` has been evicted and a later lookup for it
misses. -/
theorem method_cache_lru_eviction (k : String) (v : Nat)
    (tag : String → Nat) (ks : List String)
    (hk : k ∉ ks) (hnd : ks.Nodup)
    (hlen : METHOD_CACHE_CAPACITY ≤ ks.length) :
    lruGet (ks.foldl (fun acc k2 => lruPut acc k2 (tag k2)) (lruPut [] k v))
        k = none := by
  have h0 : lruPut [] k v = [(k, v)] := rfl
  have hfresh : ∀ a ∈ ks, ∀ p ∈ ([(k, v)] : MethodCache), p.1 ≠ a := by
    intro a ha p hp
    rw [List.mem_singleton.mp hp]
    intro e
    rw [show ((k, v)).1 = k from rfl] at e
    subst e
    exact hk ha
  rw [h0, foldl_lruPut_fresh tag ks [(k, v)] hnd hfresh
    (by simp [METHOD_CACHE_CAPACITY])]
  have hA : METHOD_CACHE_CAPACITY
      ≤ ((ks.reverse.map fun a => (a, tag a))).length := by
    rw [List.length_map, List.length_reverse]
    exact hlen
  rw [List.take_append_of_le_length hA]
  unfold lruGet
  rw [List.find?_eq_none.mpr ?nf]
  case nf =>
    intro p hp
    have hp' : p ∈ ks.reverse.map fun a => (a, tag a) :=
      List.take_subset _ _ hp
    rcases List.mem_map.mp hp' with ⟨a, ha, hpa⟩
    subst hpa
    simp only [beq_iff_eq]
    intro e
    subst e
    exact hk (List.mem_reverse.mp ha)
  rfl

/-- Witness for `method_cache_lru_eviction` at a concrete input: the key
"x" is recorded first, then the 100 distinct identities "0".."99"; the
lookup for "x" then misses. -/
theorem method_cache_lru_eviction_witness :
    ("x" ∉ (List.range 100).map (fun n => Nat.repr n))
      ∧ lruGet (((List.range 100).map (fun n => Nat.repr n)).foldl
            (fun acc k2 => lruPut acc k2 ((fun _ => 1) k2)) (lruPut [] "x" 0))
          "x" = none :=
  ⟨by decide,
    method_cache_lru_eviction "x" 0 (fun _ => 1)
      ((List.range 100).map (fun n => Nat.repr n))
      (by decide) (by decide) (by decide)⟩
